import Mathlib

/-!
Verification of the crawl controller in `src/scrapers/electrichouse.py`
(repository `eh-scraper-streamlit`).

The Python source is shallowly embedded: parsed JSON bodies (the result of
`json.loads`) become the inductive `PyVal`; Python's `dict.get`, `len`, the
`in` operator, truthiness and attribute errors become explicit functions in
the `Except PyErr` monad; the spider callbacks `parse_categories`,
`parse_products` and the helpers `traverse_categories`,
`process_product_item`, `fetch_products` are translated line by line.
Scrapy's request/callback engine, which re-invokes `parse_products` for each
request yielded by pagination, is modelled by the driver `crawl_category`.
-/

set_option maxHeartbeats 1000000

namespace EHScraper

/-- A Python value as produced by `json.loads`: `None`, booleans, numbers
(JSON integers; the prices in the claims are integral), strings, lists and
string-keyed dicts. -/
inductive PyVal where
  | none : PyVal
  | bool (b : Bool) : PyVal
  | int (n : Int) : PyVal
  | str (s : String) : PyVal
  | list (xs : List PyVal) : PyVal
  | dict (kvs : List (String × PyVal)) : PyVal

/-- The Python exceptions the embedded code can raise (only
`json.JSONDecodeError` is ever caught by the source; these two propagate). -/
inductive PyErr where
  | attributeError : PyErr
  | typeError : PyErr
deriving DecidableEq, Repr

/-- Key lookup in a dict's association list (first match; dicts produced by
`json.loads` have unique keys). `none` means the key is absent. -/
def pyLookup (kvs : List (String × PyVal)) (k : String) : Option PyVal :=
  match kvs with
  | [] => Option.none
  | (k', v) :: rest => if k' = k then some v else pyLookup rest k

/-- Python truthiness of a value (`if v:`). -/
def pyTruthy : PyVal → Bool
  | .none => false
  | .bool b => b
  | .int n => n != 0
  | .str s => s != ""
  | .list xs => !xs.isEmpty
  | .dict kvs => !kvs.isEmpty

/-- Python `v.get(k, d)`: returns the stored value when the key is present
(even when that value is `None`), the default when absent, and raises
`AttributeError` when the receiver is not a dict. -/
def pyGet (v : PyVal) (k : String) (d : PyVal) : Except PyErr PyVal :=
  match v with
  | .dict kvs => .ok ((pyLookup kvs k).getD d)
  | _ => .error .attributeError

/-- Python `len(v)`: defined for lists, strings and dicts, `TypeError`
otherwise. -/
def pyLen : PyVal → Except PyErr Nat
  | .list xs => .ok xs.length
  | .str s => .ok s.length
  | .dict kvs => .ok kvs.length
  | _ => .error .typeError

/-- Python `needle in container` for a string needle: key membership for a
dict, element equality for a list, substring test for a string, `TypeError`
for non-containers. -/
def pyInStr (needle : String) (container : PyVal) : Except PyErr Bool :=
  match container with
  | .dict kvs => .ok (kvs.any (fun p => p.1 == needle))
  | .list xs => .ok (xs.any (fun e => match e with | .str s => s == needle | _ => false))
  | .str s => .ok (!((s.splitOn needle).length == 1))
  | _ => .error .typeError

/-- A scrapy `Request` produced by `fetch_products`: the GraphQL product
query for one category uid and one 1-based page number (`cb_kwargs`). -/
structure Request where
  category_uid : PyVal
  page : Nat

/-- The source's `fetch_products(category_uid, page)`: yields exactly one request for the
given category and page (the query text, headers and meta are fixed). -/
def fetch_products (category_uid : PyVal) (page : Nat) : Request :=
  { category_uid := category_uid, page := page }

/-- Is the value a Python number or boolean (the types `len` rejects even
when truthy)? -/
def pyNumeric : PyVal → Bool
  | .int _ => true
  | .bool _ => true
  | _ => false

/-- Sequencing of two generator segments: all emissions of the first, then
of the second; an exception in the first pre-empts the second. -/
def exAppend (a b : Except PyErr (List Request)) : Except PyErr (List Request) :=
  match a with
  | .error e => .error e
  | .ok xs =>
    match b with
    | .error e => .error e
    | .ok ys => .ok (xs ++ ys)

/-- The leaf branch of `traverse_categories`: `uid = cat.get("uid")`; when
`uid` is truthy, `yield from self.fetch_products(uid, page=1)` emits one
request before the loop continues with the remaining siblings (`restRes`). -/
def leafEmit (kvs : List (String × PyVal)) (restRes : Except PyErr (List Request)) :
    Except PyErr (List Request) :=
  match pyLookup kvs "uid" with
  | some u =>
    if pyTruthy u then
      match restRes with
      | .error e => .error e
      | .ok rs => .ok (fetch_products u 1 :: rs)
    else restRes
  | Option.none => restRes

theorem pyLookup_sizeOf {kvs : List (String × PyVal)} {k : String} {v : PyVal}
    (h : pyLookup kvs k = some v) : sizeOf v < sizeOf kvs := by
  induction kvs with
  | nil => simp [pyLookup] at h
  | cons p rest ih =>
    obtain ⟨k', v'⟩ := p
    unfold pyLookup at h
    by_cases hk : k' = k
    · simp [hk] at h
      subst h
      simp
      omega
    · simp [hk] at h
      have := ih h
      simp
      omega

/-- The helper `traverse_categories(cats)` from `parse_categories`: iterates the
sequence, recurses into `cat["children"]` when `cat.get("children")` is
truthy (with `TypeError` from `len` when that truthy value is a number or a
boolean), and otherwise treats the node as a leaf.  Iterating a non-empty
string or dict hands a string element to `.get`, which raises
`AttributeError`; iterating `None`, a bool or an int raises `TypeError`.
Exceptions inside the generator abort the whole traversal (nothing in the
source catches them), so the embedding returns `Except`. -/
def traverse_categories : PyVal → Except PyErr (List Request)
  | .list [] => .ok []
  | .list (cat :: rest) =>
    match cat with
    | .dict kvs =>
      match hc : pyLookup kvs "children" with
      | some cv =>
        if pyTruthy cv then
          if pyNumeric cv then .error .typeError
          else exAppend (traverse_categories cv) (traverse_categories (.list rest))
        else leafEmit kvs (traverse_categories (.list rest))
      | Option.none => leafEmit kvs (traverse_categories (.list rest))
    | _ => .error .attributeError
  | .str s => if s = "" then .ok [] else .error .attributeError
  | .dict kvs => if kvs.isEmpty then .ok [] else .error .attributeError
  | .none => .error .typeError
  | .bool _ => .error .typeError
  | .int _ => .error .typeError
termination_by v => sizeOf v
decreasing_by
  all_goals first
  | (have h1 := pyLookup_sizeOf hc; simp; omega)
  | (simp; omega)
  | simp

/-- The callback `parse_categories(response)`: `json.loads` failure (`body = none`) is
caught and logged, yielding nothing; otherwise
`data.get("data", {}).get("categoryList", [])` is resolved, `len` is
evaluated by the log line, and the category tree is traversed.
`AttributeError`/`TypeError` are not caught by the source and propagate. -/
def parse_categories (body : Option PyVal) : Except PyErr (List Request) :=
  match body with
  | Option.none => .ok []
  | some data =>
    match pyGet data "data" (.dict []) with
    | .error e => .error e
    | .ok d1 =>
      match pyGet d1 "categoryList" (.list []) with
      | .error e => .error e
      | .ok categories =>
        match pyLen categories with
        | .error e => .error e
        | .ok _ => traverse_categories categories

/-- The normalizer `process_product_item(item)`: flattens one raw product node into the
output record, a dict with exactly the fourteen literal keys of the source's
return statement.  Every lookup is a `.get` with the source's default (`{}`
for intermediate blocks, `None` for the one-argument form), evaluated in
source order; `.get` on a non-dict intermediate value raises
`AttributeError`. -/
def process_product_item (item : PyVal) : Except PyErr PyVal := do
  let pr ← pyGet item "price_range" (.dict [])
  let price_info ← pyGet pr "maximum_price" (.dict [])
  let fp ← pyGet price_info "final_price" (.dict [])
  let final_price ← pyGet fp "value" .none
  let rp ← pyGet price_info "regular_price" (.dict [])
  let regular_price ← pyGet rp "value" .none
  let fp2 ← pyGet price_info "final_price" (.dict [])
  let currency ← pyGet fp2 "currency" .none
  let discount ← pyGet price_info "discount" (.dict [])
  let idv ← pyGet item "id" .none
  let uidv ← pyGet item "uid" .none
  let skuv ← pyGet item "sku" .none
  let namev ← pyGet item "name" .none
  let url_keyv ← pyGet item "url_key" .none
  let stockv ← pyGet item "stock_status" .none
  let discount_amount ← pyGet discount "amount_off" .none
  let discount_percent ← pyGet discount "percent_off" .none
  let si ← pyGet item "small_image" (.dict [])
  let image_url ← pyGet si "url" .none
  let de ← pyGet item "description" (.dict [])
  let descr ← pyGet de "html" .none
  pure (.dict
    [("id", idv), ("uid", uidv), ("sku", skuv), ("name", namev),
     ("url_key", url_keyv), ("stock_status", stockv),
     ("final_price", final_price), ("regular_price", regular_price),
     ("currency", currency),
     ("discount_amount", discount_amount), ("discount_percent", discount_percent),
     ("image_url", image_url), ("description", descr),
     ("source_site", .str "electric-house")])

/-- The `for item in items: yield self.process_product_item(item)` loop of
`parse_products`.  Iterating a non-empty string or dict hands a string to
`process_product_item`, whose first `.get` raises `AttributeError`;
iterating `None`, a bool or an int raises `TypeError`. -/
def processItems : PyVal → Except PyErr (List PyVal)
  | .list xs => xs.mapM process_product_item
  | .str s => if s = "" then .ok [] else .error .attributeError
  | .dict kvs => if kvs.isEmpty then .ok [] else .error .attributeError
  | _ => .error .typeError

/-- Python `page < total_pages` where `page` is the int passed through
`cb_kwargs` and `total_pages` came from the payload: int/bool compare
numerically, any other right-hand type raises `TypeError`. -/
def pyLtNat (page : Nat) (v : PyVal) : Except PyErr Bool :=
  match v with
  | .int n => .ok ((page : Int) < n)
  | .bool b => .ok ((page : Int) < (if b then 1 else 0))
  | _ => .error .typeError

/-- The callback `parse_products(response, category_uid, page)`: `body = none` models a
`json.JSONDecodeError`, which is caught and logged (nothing yielded).  A
payload with a top-level `errors` member is logged and ends the category
(`return`).  Otherwise the items are processed in order and, when
`page < total_pages`, one follow-up request `fetch_products(uid, page+1)`
is yielded.  The result is the list of yielded records together with the
optional follow-up request. -/
def parse_products (body : Option PyVal) (category_uid : PyVal) (page : Nat) :
    Except PyErr (List PyVal × Option Request) :=
  match body with
  | Option.none => .ok ([], Option.none)
  | some data => do
    let hasErrs ← pyInStr "errors" data
    if hasErrs then
      pure ([], Option.none)
    else do
      let d1 ← pyGet data "data" (.dict [])
      let products_data ← pyGet d1 "products" (.dict [])
      let items ← pyGet products_data "items" (.list [])
      let page_info ← pyGet products_data "page_info" (.dict [])
      let total_pages ← pyGet page_info "total_pages" (.int 1)
      let _ ← pyLen items
      let recs ← processItems items
      let cont ← pyLtNat page total_pages
      if cont then
        pure (recs, some (fetch_products category_uid (page + 1)))
      else
        pure (recs, Option.none)

/-- Scrapy's engine loop for one category, driving
`parse_products`: `pages p` is the (decoded) response body the server
returns for page `p`; each consumed page is recorded as its issued
`Request`, and the follow-up request yielded by pagination is fetched next.
`fuel` bounds the number of engine steps (every claim supplies enough). -/
def crawl_category (pages : Nat → Option PyVal) (uid : PyVal) :
    Nat → Nat → Except PyErr (List PyVal × List Request)
  | 0, _ => .ok ([], [])
  | fuel + 1, page =>
    match parse_products (pages page) uid page with
    | .error e => .error e
    | .ok (recs, Option.none) => .ok (recs, [fetch_products uid page])
    | .ok (recs, some req) =>
      match crawl_category pages uid fuel req.page with
      | .error e => .error e
      | .ok (recs', reqs) => .ok (recs ++ recs', fetch_products uid page :: reqs)

/-- A well-formed product-page payload as described in §6 of the spec: the
`data.products` object with its `items` array and `page_info` block. -/
def mkPage (cur : Int) (total : Int) (items : List PyVal) : PyVal :=
  .dict [("data", .dict [("products", .dict
    [("items", .list items),
     ("page_info", .dict [("current_page", .int cur), ("total_pages", .int total)])])])]

/-! ## Category trees

`CategoryNode` is the data model of §3 of the spec: a string identifier and
an ordered, possibly empty sequence of children.  `encodeCat` renders such a
tree as the parsed-JSON value the traversal receives. -/

inductive CategoryNode where
  | mk (uid : String) (children : List CategoryNode)

mutual

def encodeCat : CategoryNode → PyVal
  | .mk uid children => .dict [("uid", .str uid), ("children", .list (encodeCatList children))]

def encodeCatList : List CategoryNode → List PyVal
  | [] => []
  | c :: rest => encodeCat c :: encodeCatList rest

end

/-- The category forest as the value of `data.categoryList`. -/
def encodeCatForest (f : List CategoryNode) : PyVal := .list (encodeCatList f)

/-- Specification-side description (§4.1, amended by the `uid` guard of the
source): the pre-order sequence of scrape requests, one per node whose
children sequence is empty and whose uid is truthy (non-empty). -/
def leafRequests : List CategoryNode → List Request
  | [] => []
  | .mk uid [] :: rest =>
    (if uid = "" then [] else [fetch_products (.str uid) 1]) ++ leafRequests rest
  | .mk _ (c :: cs) :: rest => leafRequests (c :: cs) ++ leafRequests rest

theorem traverse_encodeCatList : ∀ (f : List CategoryNode),
    traverse_categories (.list (encodeCatList f)) = .ok (leafRequests f) := by
  intro f
  induction' hn : sizeOf f using Nat.strongRecOn with n ih generalizing f
  subst hn
  match f with
  | [] => simp [encodeCatList, traverse_categories, leafRequests]
  | .mk uid [] :: rest =>
    have ihrest := ih (sizeOf rest) (by simp; try omega) rest rfl
    by_cases h : uid = "" <;>
      simp [encodeCatList, encodeCat, traverse_categories, pyLookup, pyTruthy,
        leafEmit, leafRequests, ihrest, h]
  | .mk uid (c :: cs) :: rest =>
    have ihrest := ih (sizeOf rest) (by simp; try omega) rest rfl
    have ihcs := ih (sizeOf (c :: cs)) (by simp; try omega) (c :: cs) rfl
    simp only [encodeCatList] at ihcs
    simp [encodeCatList, encodeCat, traverse_categories, pyLookup, pyTruthy,
      pyNumeric, exAppend, leafRequests, ihrest, ihcs]

/-! ## Category trees with absent or null fields

`CatNodeR` refines `CategoryNode`: `uid` can be absent (`none`), null
(`some none`) or a string (`some (some s)`), and `children` can be absent,
null or a list — the shapes the category query can actually produce (the
`children` field is absent at the query's maximum selected depth). -/

inductive CatNodeR where
  | mk (uid : Option (Option String)) (children : Option (Option (List CatNodeR)))

mutual

def encodeCatR : CatNodeR → PyVal
  | .mk uid children =>
    .dict (
      (match uid with
       | Option.none => []
       | some Option.none => [("uid", PyVal.none)]
       | some (some s) => [("uid", PyVal.str s)]) ++
      (match children with
       | Option.none => []
       | some Option.none => [("children", PyVal.none)]
       | some (some cs) => [("children", PyVal.list (encodeCatRList cs))]))

def encodeCatRList : List CatNodeR → List PyVal
  | [] => []
  | c :: rest => encodeCatR c :: encodeCatRList rest

end

/-- The scrape targets the traversal should initiate: a node contributes a
page-1 request iff its children entry is absent, null or an empty list and
its uid is a present, non-empty string; nodes with a non-empty children
list are only recursed into. -/
def targetsR : List CatNodeR → List Request
  | [] => []
  | .mk uid children :: rest =>
    match children with
    | some (some (c :: cs)) => targetsR (c :: cs) ++ targetsR rest
    | _ =>
      (match uid with
       | some (some s) => if s = "" then [] else [fetch_products (.str s) 1]
       | _ => []) ++ targetsR rest

theorem traverse_encodeCatRList : ∀ (f : List CatNodeR),
    traverse_categories (.list (encodeCatRList f)) = .ok (targetsR f) := by
  intro f
  induction' hn : sizeOf f using Nat.strongRecOn with n ih generalizing f
  subst hn
  match f with
  | [] => simp [encodeCatRList, traverse_categories, targetsR]
  | .mk uid children :: rest =>
    have ihrest := ih (sizeOf rest) (by simp; try omega) rest rfl
    match children with
    | Option.none =>
      match uid with
      | Option.none =>
        simp [encodeCatRList, encodeCatR, traverse_categories, pyLookup, pyTruthy,
          leafEmit, targetsR, ihrest]
      | some Option.none =>
        simp [encodeCatRList, encodeCatR, traverse_categories, pyLookup, pyTruthy,
          leafEmit, targetsR, ihrest]
      | some (some s) =>
        by_cases h : s = "" <;>
        simp [encodeCatRList, encodeCatR, traverse_categories, pyLookup, pyTruthy,
          leafEmit, targetsR, ihrest, h]
    | some Option.none =>
      match uid with
      | Option.none =>
        simp [encodeCatRList, encodeCatR, traverse_categories, pyLookup, pyTruthy,
          leafEmit, targetsR, ihrest]
      | some Option.none =>
        simp [encodeCatRList, encodeCatR, traverse_categories, pyLookup, pyTruthy,
          leafEmit, targetsR, ihrest]
      | some (some s) =>
        by_cases h : s = "" <;>
        simp [encodeCatRList, encodeCatR, traverse_categories, pyLookup, pyTruthy,
          leafEmit, targetsR, ihrest, h]
    | some (some []) =>
      match uid with
      | Option.none =>
        simp [encodeCatRList, encodeCatR, traverse_categories, pyLookup, pyTruthy,
          leafEmit, targetsR, ihrest]
      | some Option.none =>
        simp [encodeCatRList, encodeCatR, traverse_categories, pyLookup, pyTruthy,
          leafEmit, targetsR, ihrest]
      | some (some s) =>
        by_cases h : s = "" <;>
        simp [encodeCatRList, encodeCatR, traverse_categories, pyLookup, pyTruthy,
          leafEmit, targetsR, ihrest, h]
    | some (some (c :: cs)) =>
      have ihcs := ih (sizeOf (c :: cs)) (by simp; try omega) (c :: cs) rfl
      simp only [encodeCatRList] at ihcs
      cases uid with
      | none =>
        simp [encodeCatRList, encodeCatR, traverse_categories, pyLookup, pyTruthy,
          pyNumeric, exAppend, targetsR, ihrest, ihcs]
      | some u =>
        cases u <;>
        simp [encodeCatRList, encodeCatR, traverse_categories, pyLookup, pyTruthy,
          pyNumeric, exAppend, targetsR, ihrest, ihcs]

/-! ## Raw product nodes

A raw product node as the product query requests it (§6): every nested
field may be present or absent independently; scalar leaves carry arbitrary
values.  `encodeRawNode` renders the node as the parsed-JSON dict the
normalizer receives, with keys in the query's response order. -/

/-- One optional dict entry: present fields contribute a key/value pair,
absent fields contribute nothing. -/
def optField (k : String) (o : Option PyVal) : List (String × PyVal) :=
  match o with
  | some v => [(k, v)]
  | Option.none => []

structure RawMoney where
  value : Option PyVal
  currency : Option PyVal

def encodeMoney (m : RawMoney) : PyVal :=
  .dict (optField "value" m.value ++ optField "currency" m.currency)

structure RawDiscount where
  amount_off : Option PyVal
  percent_off : Option PyVal

def encodeDiscount (d : RawDiscount) : PyVal :=
  .dict (optField "amount_off" d.amount_off ++ optField "percent_off" d.percent_off)

structure RawMaxPrice where
  final_price : Option RawMoney
  regular_price : Option RawMoney
  discount : Option RawDiscount

def encodeMaxPrice (m : RawMaxPrice) : PyVal :=
  .dict (optField "final_price" (m.final_price.map encodeMoney) ++
         optField "regular_price" (m.regular_price.map encodeMoney) ++
         optField "discount" (m.discount.map encodeDiscount))

structure RawPriceRange where
  maximum_price : Option RawMaxPrice

def encodePriceRange (pr : RawPriceRange) : PyVal :=
  .dict (optField "maximum_price" (pr.maximum_price.map encodeMaxPrice))

structure RawImage where
  url : Option PyVal

def encodeImage (i : RawImage) : PyVal := .dict (optField "url" i.url)

structure RawDescription where
  html : Option PyVal

def encodeDescription (d : RawDescription) : PyVal := .dict (optField "html" d.html)

structure RawProductNode where
  id : Option PyVal
  uid : Option PyVal
  sku : Option PyVal
  name : Option PyVal
  stock_status : Option PyVal
  url_key : Option PyVal
  price_range : Option RawPriceRange
  small_image : Option RawImage
  description : Option RawDescription

def encodeRawNode (n : RawProductNode) : PyVal :=
  .dict (optField "id" n.id ++ optField "uid" n.uid ++ optField "sku" n.sku ++
         optField "name" n.name ++ optField "stock_status" n.stock_status ++
         optField "url_key" n.url_key ++
         optField "price_range" (n.price_range.map encodePriceRange) ++
         optField "small_image" (n.small_image.map encodeImage) ++
         optField "description" (n.description.map encodeDescription))

/-- Specification-side description (§4.3): the flat record the normalizer
should produce, every nested lookup defaulting to absent (`None`) when an
intermediate field is missing. -/
def recordOf (n : RawProductNode) : PyVal :=
  let price_info := n.price_range.bind (fun pr => pr.maximum_price)
  let fp := price_info.bind (fun m => m.final_price)
  let rp := price_info.bind (fun m => m.regular_price)
  let d := price_info.bind (fun m => m.discount)
  .dict
    [("id", n.id.getD .none), ("uid", n.uid.getD .none), ("sku", n.sku.getD .none),
     ("name", n.name.getD .none), ("url_key", n.url_key.getD .none),
     ("stock_status", n.stock_status.getD .none),
     ("final_price", (fp.bind (fun m => m.value)).getD .none),
     ("regular_price", (rp.bind (fun m => m.value)).getD .none),
     ("currency", (fp.bind (fun m => m.currency)).getD .none),
     ("discount_amount", (d.bind (fun x => x.amount_off)).getD .none),
     ("discount_percent", (d.bind (fun x => x.percent_off)).getD .none),
     ("image_url", (n.small_image.bind (fun i => i.url)).getD .none),
     ("description", (n.description.bind (fun x => x.html)).getD .none),
     ("source_site", .str "electric-house")]

@[simp] theorem pyLookup_nil (k : String) : pyLookup [] k = Option.none := rfl

@[simp] theorem pyLookup_optField_app_ne (k k' : String) (o : Option PyVal)
    (rest : List (String × PyVal)) (h : ¬ k' = k) :
    pyLookup (optField k' o ++ rest) k = pyLookup rest k := by
  cases o <;> simp [optField, pyLookup, h]

@[simp] theorem pyLookup_optField_app_eq (k : String) (o : Option PyVal)
    (rest : List (String × PyVal)) :
    pyLookup (optField k o ++ rest) k = o.or (pyLookup rest k) := by
  cases o <;> simp [optField, pyLookup]

@[simp] theorem pyLookup_optField_ne (k k' : String) (o : Option PyVal) (h : ¬ k' = k) :
    pyLookup (optField k' o) k = Option.none := by
  cases o <;> simp [optField, pyLookup, h]

@[simp] theorem pyLookup_optField_eq (k : String) (o : Option PyVal) :
    pyLookup (optField k o) k = o := by
  cases o <;> simp [optField, pyLookup]

@[simp] theorem pyGet_dict (kvs : List (String × PyVal)) (k : String) (d : PyVal) :
    pyGet (.dict kvs) k d = .ok ((pyLookup kvs k).getD d) := rfl

@[simp] theorem exceptBind_ok {α β : Type} (a : α) (f : α → Except PyErr β) :
    (Except.ok a >>= f) = f a := rfl

/-- On every schema-shaped raw node the normalizer succeeds and produces
exactly the record described by the spec's extraction paths. -/
theorem process_encodeRawNode (n : RawProductNode) :
    process_product_item (encodeRawNode n) = .ok (recordOf n) := by
  obtain ⟨idv, uidv, skuv, namev, stockv, urlkv, pr, si, de⟩ := n
  rcases pr with _ | ⟨_ | ⟨(_ | ⟨fv, fc⟩), (_ | ⟨rv, rc⟩), (_ | ⟨da, dp⟩)⟩⟩ <;>
    rcases si with _ | ⟨iu⟩ <;>
    rcases de with _ | ⟨dh⟩ <;>
    simp [process_product_item, encodeRawNode, encodePriceRange, encodeMaxPrice,
      encodeMoney, encodeDiscount, encodeImage, encodeDescription, recordOf]

/-! ## Pagination -/

theorem parse_products_mkPage (uid : PyVal) (cur total : Int) (items : List PyVal)
    (recs : List PyVal) (page : Nat) (h : processItems (.list items) = .ok recs) :
    parse_products (some (mkPage cur total items)) uid page =
      .ok (recs, if (page : Int) < total then some (fetch_products uid (page + 1))
                 else Option.none) := by
  simp [parse_products, mkPage, pyInStr, pyLookup, pyLen, pyLtNat, h]
  split <;> rfl

theorem crawl_category_run (uid : PyVal) (N : Nat) (pages : Nat → Option PyVal)
    (items recs : Nat → List PyVal)
    (hpages : ∀ p, 1 ≤ p → p ≤ N → pages p = some (mkPage (p : Int) (N : Int) (items p)))
    (hrecs : ∀ p, 1 ≤ p → p ≤ N → processItems (.list (items p)) = .ok (recs p)) :
    ∀ fuel p, 1 ≤ p → p ≤ N → N - p < fuel →
      crawl_category pages uid fuel p =
        .ok ((((List.range' p (N + 1 - p)).map recs).flatten),
             (List.range' p (N + 1 - p)).map (fun q => fetch_products uid q)) := by
  intro fuel
  induction fuel with
  | zero => intro p h1 h2 h3; omega
  | succ f ih =>
    intro p h1 h2 h3
    have hp := parse_products_mkPage uid (p : Int) (N : Int) (items p) (recs p) p
      (hrecs p h1 h2)
    by_cases hlt : p < N
    · have hlt' : ((p : Int) < (N : Int)) := by exact_mod_cast hlt
      have hnext := ih (p + 1) (by omega) (by omega) (by omega)
      have hrange : List.range' p (N + 1 - p) = p :: List.range' (p + 1) (N - p) := by
        have : N + 1 - p = (N - p) + 1 := by omega
        rw [this, List.range'_succ]
      have hrange2 : N + 1 - (p + 1) = N - p := by omega
      simp [crawl_category, hpages p h1 h2, hp, hlt', fetch_products, hnext, hrange2, hrange]
    · have hp2 : p = N := by omega
      have hlt' : ¬ ((p : Int) < (N : Int)) := by
        simp
        omega
      have hrange : N + 1 - p = 1 := by omega
      simp [crawl_category, hpages p h1 h2, hp, hlt', hrange, List.range']

/-! ## Claims -/

theorem bind_eq_ok {α β : Type} {x : Except PyErr α} {f : α → Except PyErr β} {b : β}
    (h : (x >>= f) = .ok b) : ∃ a, x = .ok a ∧ f a = .ok b := by
  cases x with
  | error e => simp [Bind.bind, Except.bind] at h
  | ok a => exact ⟨a, rfl, by simpa [Bind.bind, Except.bind] using h⟩

/-- C1, counterexample: the tree with a single childless node whose uid is
the empty string.  The claim demands every node with an empty children
sequence be emitted, yet the traversal emits nothing for this tree, because
the empty uid is falsy and the node is silently skipped. -/
theorem C1_counterexample :
    traverse_categories (encodeCatForest [CategoryNode.mk "" []]) = .ok [] ∧
    traverse_categories (encodeCatForest [CategoryNode.mk "" []]) ≠
      .ok [fetch_products (.str "") 1] := by
  constructor <;>
    simp [encodeCatForest, encodeCatList, encodeCat, traverse_categories, pyLookup,
      pyTruthy, leafEmit]

/-- C1, amended: for every category tree (arbitrary depth, including the
empty tree) the traversal emits, in pre-order (siblings in response order,
depth-first), exactly the nodes whose children sequence is empty *and*
whose uid is truthy (non-empty); nodes with one or more children are never
emitted; the empty tree yields the empty sequence without raising. -/
theorem C1_leaf_traversal (f : List CategoryNode) :
    traverse_categories (encodeCatForest f) = .ok (leafRequests f) :=
  traverse_encodeCatList f

/-- C2: for every category whose pages 1..N all report `total_pages = N`
(N ≥ 1), the fetcher issues exactly N sequential requests with page numbers
1..N in that order — page N+1 is never requested, and for N = 1 exactly one
request is issued — and the yielded records are the concatenation, in page
order, of each page's normalized items. -/
theorem C2_pagination_complete (uid : PyVal) (N : Nat) (pages : Nat → Option PyVal)
    (items recs : Nat → List PyVal) (fuel : Nat) (hN : 1 ≤ N) (hfuel : N ≤ fuel)
    (hpages : ∀ p, 1 ≤ p → p ≤ N → pages p = some (mkPage (p : Int) (N : Int) (items p)))
    (hrecs : ∀ p, 1 ≤ p → p ≤ N → processItems (.list (items p)) = .ok (recs p)) :
    crawl_category pages uid fuel 1 =
      .ok ((((List.range' 1 N).map recs).flatten),
           (List.range' 1 N).map (fun q => fetch_products uid q)) := by
  have h := crawl_category_run uid N pages items recs hpages hrecs fuel 1 le_rfl hN (by omega)
  simpa using h

/-- C2, witness: two pages reporting `total_pages = 2` are fetched as
exactly the requests for pages 1 and 2. -/
theorem C2_witness :
    crawl_category (fun p => some (mkPage (p : Int) 2 [])) (.str "u") 2 1 =
      .ok ((((List.range' 1 2).map (fun _ => ([] : List PyVal))).flatten),
           (List.range' 1 2).map (fun q => fetch_products (.str "u") q)) :=
  C2_pagination_complete (.str "u") 2 _ (fun _ => []) (fun _ => []) 2 (by omega) (by omega)
    (fun _ _ _ => rfl) (fun _ _ _ => rfl)

/-- C3, counterexample: a raw node whose `price_range` field is present but
null.  The claim says the normalizer never fails on any raw product node;
here it raises `AttributeError` (`None.get`), returning no record. -/
theorem C3_counterexample :
    process_product_item (.dict [("price_range", PyVal.none)]) =
      .error .attributeError := rfl

/-- C3, amended: the normalizer is total on every raw product node whose
nested blocks, when present, are objects — whichever nested fields are
absent, at any level, it returns the flat record, substituting null for
every missing value; a present-but-null (or otherwise non-object)
intermediate block instead raises `AttributeError`. -/
theorem C3_normalizer_total (n : RawProductNode) :
    process_product_item (encodeRawNode n) = .ok (recordOf n) :=
  process_encodeRawNode n

/-- C4, counterexample: page 1 of a category returns zero items but reports
`total_pages = 3`.  The claim says a zero-item page stops pagination
regardless of the reported total_pages; the fetcher nevertheless issues the
requests for pages 2 and 3. -/
theorem C4_counterexample :
    crawl_category (fun p => some (mkPage (p : Int) 3 [])) (.str "u") 5 1 =
      .ok ([], [fetch_products (.str "u") 1, fetch_products (.str "u") 2,
                fetch_products (.str "u") 3]) := rfl

/-- C4, amended: a zero-item page ends a category's pagination exactly when
its reported total_pages does not exceed the current page (as when the
server reports `total_pages = 0` for an empty category); with
`total_pages > page` a follow-up request is still issued even though the
page was empty. -/
theorem C4_empty_page_stop (uid : PyVal) (cur total : Int) (page : Nat) :
    parse_products (some (mkPage cur total [])) uid page =
      .ok ([], if (page : Int) < total then some (fetch_products uid (page + 1))
               else Option.none) :=
  parse_products_mkPage uid cur total [] [] page rfl

/-- C5: a page response that is well-formed JSON carrying a top-level
`errors` member yields zero records and no follow-up request, for every
category and page, without raising; in particular, when page 1 carries
errors the category contributes zero items after exactly one request. -/
theorem C5_graphql_errors_stop (uid : PyVal) (kvs : List (String × PyVal)) (page : Nat)
    (hkey : kvs.any (fun p => p.1 == "errors") = true) :
    parse_products (some (.dict kvs)) uid page = .ok ([], Option.none) ∧
    crawl_category (fun _ => some (.dict kvs)) uid 1 1 =
      .ok ([], [fetch_products uid 1]) := by
  constructor <;> (simp [crawl_category, parse_products, pyInStr, hkey]; rfl)

/-- C5, witness: a payload whose only member is `errors`. -/
theorem C5_witness :
    parse_products (some (.dict [("errors", PyVal.list [])])) (.str "u") 3 =
      .ok ([], Option.none) ∧
    crawl_category (fun _ => some (.dict [("errors", PyVal.list [])])) (.str "u") 1 1 =
      .ok ([], [fetch_products (.str "u") 1]) :=
  C5_graphql_errors_stop (.str "u") [("errors", PyVal.list [])] 3 (by decide)

/-- C6, counterexample: the body `{"data": null}` is well-formed JSON
lacking the expected category path — the claim says resolution then yields
an empty sequence without raising — yet `parse_categories` raises
`AttributeError` (`None.get("categoryList", [])`). -/
theorem C6_counterexample :
    parse_categories (some (.dict [("data", PyVal.none)])) = .error .attributeError := rfl

/-- C6, amended: category resolution yields an empty sequence without
raising when the body is unparseable JSON, or when the `data` /
`categoryList` keys are absent with object-valued intermediates; a
present-but-null `data` value or a non-object body instead raises. -/
theorem C6_resolution_empty :
    parse_categories Option.none = .ok [] ∧
    (∀ kvs, pyLookup kvs "data" = Option.none →
      parse_categories (some (.dict kvs)) = .ok []) ∧
    (∀ kvs inner, pyLookup kvs "data" = some (.dict inner) →
      pyLookup inner "categoryList" = Option.none →
      parse_categories (some (.dict kvs)) = .ok []) := by
  refine ⟨rfl, ?_, ?_⟩
  · intro kvs h
    simp [parse_categories, pyGet, h, pyLen, traverse_categories]
  · intro kvs inner h1 h2
    simp [parse_categories, pyGet, h1, h2, pyLen, traverse_categories]

/-- C6, witness: a body without a `data` key resolves to zero categories. -/
theorem C6_witness :
    parse_categories (some (.dict [("x", PyVal.int 1)])) = .ok [] :=
  C6_resolution_empty.2.1 [("x", PyVal.int 1)] rfl

/-- C7: a node lacking the entire `price_range` block normalizes, without
raising, to a record whose final_price, regular_price, currency,
discount_amount and discount_percent are all null; and a node whose price
block has a final_price (with a non-null value) but no discount sub-block
yields that non-null final_price together with null discount fields. -/
theorem C7_missing_price_blocks (n m : RawProductNode) (mp : RawMaxPrice)
    (money : RawMoney) (v : PyVal)
    (hn : n.price_range = Option.none)
    (hm : m.price_range = some ⟨some mp⟩)
    (hfp : mp.final_price = some money)
    (hv : money.value = some v) (hvn : v ≠ PyVal.none)
    (hd : mp.discount = Option.none) :
    (∃ kvs, process_product_item (encodeRawNode n) = .ok (.dict kvs) ∧
      pyLookup kvs "final_price" = some PyVal.none ∧
      pyLookup kvs "regular_price" = some PyVal.none ∧
      pyLookup kvs "currency" = some PyVal.none ∧
      pyLookup kvs "discount_amount" = some PyVal.none ∧
      pyLookup kvs "discount_percent" = some PyVal.none) ∧
    (∃ kvs, process_product_item (encodeRawNode m) = .ok (.dict kvs) ∧
      pyLookup kvs "final_price" = some v ∧ v ≠ PyVal.none ∧
      pyLookup kvs "discount_amount" = some PyVal.none ∧
      pyLookup kvs "discount_percent" = some PyVal.none) := by
  constructor
  · refine ⟨_, process_encodeRawNode n, ?_, ?_, ?_, ?_, ?_⟩ <;>
      simp [recordOf, pyLookup, hn]
  · refine ⟨_, process_encodeRawNode m, ?_, hvn, ?_, ?_⟩ <;>
      simp [recordOf, pyLookup, hm, hfp, hv, hd]

/-- C7, witness: the empty node and a node carrying only a final_price
value of 7. -/
theorem C7_witness :
    (∃ kvs, process_product_item (encodeRawNode
        ⟨Option.none, Option.none, Option.none, Option.none, Option.none, Option.none,
         Option.none, Option.none, Option.none⟩) = .ok (.dict kvs) ∧
      pyLookup kvs "final_price" = some PyVal.none ∧
      pyLookup kvs "regular_price" = some PyVal.none ∧
      pyLookup kvs "currency" = some PyVal.none ∧
      pyLookup kvs "discount_amount" = some PyVal.none ∧
      pyLookup kvs "discount_percent" = some PyVal.none) ∧
    (∃ kvs, process_product_item (encodeRawNode
        ⟨Option.none, Option.none, Option.none, Option.none, Option.none, Option.none,
         some ⟨some ⟨some ⟨some (PyVal.int 7), Option.none⟩, Option.none, Option.none⟩⟩,
         Option.none, Option.none⟩) = .ok (.dict kvs) ∧
      pyLookup kvs "final_price" = some (PyVal.int 7) ∧ PyVal.int 7 ≠ PyVal.none ∧
      pyLookup kvs "discount_amount" = some PyVal.none ∧
      pyLookup kvs "discount_percent" = some PyVal.none) :=
  C7_missing_price_blocks
    ⟨Option.none, Option.none, Option.none, Option.none, Option.none, Option.none,
     Option.none, Option.none, Option.none⟩
    ⟨Option.none, Option.none, Option.none, Option.none, Option.none, Option.none,
     some ⟨some ⟨some ⟨some (PyVal.int 7), Option.none⟩, Option.none, Option.none⟩⟩,
     Option.none, Option.none⟩
    ⟨some ⟨some (PyVal.int 7), Option.none⟩, Option.none, Option.none⟩
    ⟨some (PyVal.int 7), Option.none⟩ (PyVal.int 7)
    rfl rfl rfl rfl (by simp) rfl

/-- C8: every raw node whose maximum-price block carries final_price
{value 100, currency "SAR"}, regular_price {value 150, currency "SAR"} and
discount {amount_off 50, percent_off 33} normalizes to final_price = 100,
regular_price = 150, currency = "SAR", discount_amount = 50,
discount_percent = 33 — the values copied as-is, with no conversion or
rounding. -/
theorem C8_price_values_copied (n : RawProductNode)
    (hm : n.price_range = some ⟨some ⟨some ⟨some (.int 100), some (.str "SAR")⟩,
      some ⟨some (.int 150), some (.str "SAR")⟩,
      some ⟨some (.int 50), some (.int 33)⟩⟩⟩) :
    ∃ kvs, process_product_item (encodeRawNode n) = .ok (.dict kvs) ∧
      pyLookup kvs "final_price" = some (.int 100) ∧
      pyLookup kvs "regular_price" = some (.int 150) ∧
      pyLookup kvs "currency" = some (.str "SAR") ∧
      pyLookup kvs "discount_amount" = some (.int 50) ∧
      pyLookup kvs "discount_percent" = some (.int 33) := by
  refine ⟨_, process_encodeRawNode n, ?_, ?_, ?_, ?_, ?_⟩ <;>
    simp [recordOf, pyLookup, hm]

/-- C8, witness: the scenario node of §8 of the spec. -/
theorem C8_witness :
    ∃ kvs, process_product_item (encodeRawNode
      ⟨Option.none, Option.none, Option.none, Option.none, Option.none, Option.none,
       some ⟨some ⟨some ⟨some (.int 100), some (.str "SAR")⟩,
         some ⟨some (.int 150), some (.str "SAR")⟩,
         some ⟨some (.int 50), some (.int 33)⟩⟩⟩,
       Option.none, Option.none⟩) = .ok (.dict kvs) ∧
      pyLookup kvs "final_price" = some (.int 100) ∧
      pyLookup kvs "regular_price" = some (.int 150) ∧
      pyLookup kvs "currency" = some (.str "SAR") ∧
      pyLookup kvs "discount_amount" = some (.int 50) ∧
      pyLookup kvs "discount_percent" = some (.int 33) :=
  C8_price_values_copied
    ⟨Option.none, Option.none, Option.none, Option.none, Option.none, Option.none,
     some ⟨some ⟨some ⟨some (.int 100), some (.str "SAR")⟩,
       some ⟨some (.int 150), some (.str "SAR")⟩,
       some ⟨some (.int 50), some (.int 33)⟩⟩⟩,
     Option.none, Option.none⟩ rfl

/-- C9: every record the normalizer returns is a dict with exactly the
fourteen documented keys — no more, no fewer, in the source's order — and
its source_site field is the constant "electric-house". -/
theorem C9_record_shape (item r : PyVal) (h : process_product_item item = .ok r) :
    ∃ kvs, r = .dict kvs ∧
      kvs.map Prod.fst = ["id", "uid", "sku", "name", "url_key", "stock_status",
        "final_price", "regular_price", "currency", "discount_amount",
        "discount_percent", "image_url", "description", "source_site"] ∧
      pyLookup kvs "source_site" = some (.str "electric-house") := by
  unfold process_product_item at h
  obtain ⟨pr, h1, h⟩ := bind_eq_ok h
  obtain ⟨price_info, h2, h⟩ := bind_eq_ok h
  obtain ⟨fp, h3, h⟩ := bind_eq_ok h
  obtain ⟨final_price, h4, h⟩ := bind_eq_ok h
  obtain ⟨rp, h5, h⟩ := bind_eq_ok h
  obtain ⟨regular_price, h6, h⟩ := bind_eq_ok h
  obtain ⟨fp2, h7, h⟩ := bind_eq_ok h
  obtain ⟨currency, h8, h⟩ := bind_eq_ok h
  obtain ⟨discount, h9, h⟩ := bind_eq_ok h
  obtain ⟨idv, h10, h⟩ := bind_eq_ok h
  obtain ⟨uidv, h11, h⟩ := bind_eq_ok h
  obtain ⟨skuv, h12, h⟩ := bind_eq_ok h
  obtain ⟨namev, h13, h⟩ := bind_eq_ok h
  obtain ⟨url_keyv, h14, h⟩ := bind_eq_ok h
  obtain ⟨stockv, h15, h⟩ := bind_eq_ok h
  obtain ⟨discount_amount, h16, h⟩ := bind_eq_ok h
  obtain ⟨discount_percent, h17, h⟩ := bind_eq_ok h
  obtain ⟨si, h18, h⟩ := bind_eq_ok h
  obtain ⟨image_url, h19, h⟩ := bind_eq_ok h
  obtain ⟨de, h20, h⟩ := bind_eq_ok h
  obtain ⟨descr, h21, h⟩ := bind_eq_ok h
  have hr : r = .dict
    [("id", idv), ("uid", uidv), ("sku", skuv), ("name", namev),
     ("url_key", url_keyv), ("stock_status", stockv),
     ("final_price", final_price), ("regular_price", regular_price),
     ("currency", currency),
     ("discount_amount", discount_amount), ("discount_percent", discount_percent),
     ("image_url", image_url), ("description", descr),
     ("source_site", .str "electric-house")] := by
    cases h
    rfl
  exact ⟨_, hr, rfl, by simp [pyLookup]⟩

/-- C9, witness: the record produced from the empty node. -/
theorem C9_witness :
    ∃ kvs, (PyVal.dict
    [("id", PyVal.none), ("uid", PyVal.none), ("sku", PyVal.none), ("name", PyVal.none),
     ("url_key", PyVal.none), ("stock_status", PyVal.none),
     ("final_price", PyVal.none), ("regular_price", PyVal.none), ("currency", PyVal.none),
     ("discount_amount", PyVal.none), ("discount_percent", PyVal.none),
     ("image_url", PyVal.none), ("description", PyVal.none),
     ("source_site", PyVal.str "electric-house")]) = .dict kvs ∧
      kvs.map Prod.fst = ["id", "uid", "sku", "name", "url_key", "stock_status",
        "final_price", "regular_price", "currency", "discount_amount",
        "discount_percent", "image_url", "description", "source_site"] ∧
      pyLookup kvs "source_site" = some (.str "electric-house") :=
  C9_record_shape (.dict []) _ rfl

/-- C10: the traversal initiates a product scrape for a node iff its
children entry is absent, null or an empty list *and* its uid is a present,
truthy (non-empty) string: a node whose children field is missing — as at
the category query's maximum selected depth — is treated as a leaf, while a
childless node with a missing, null or empty-string uid is silently skipped
and contributes no scrape target. -/
theorem C10_scrape_iff (f : List CatNodeR) :
    traverse_categories (.list (encodeCatRList f)) = .ok (targetsR f) :=
  traverse_encodeCatRList f

end EHScraper
